import Mathlib

/-!
Verification of the hypergraph-storage query-builder core.

This file gives a shallow embedding of the query-construction engine of the
repository:

* `src/query/parse-nested-path.ts` — path parsing, nested predicate/relation
  construction, and the structural deep merge;
* `src/query/query.ts` — the `QueryWithWhere` builder state machine, the
  `TerminalQuery` restricted surface, `whereIn`, `whereOr` and `whereJoin`;
* `src/pagination/pagination.ts` — the pagination cursor codec.

JavaScript runtime values are modelled by the inductive type `JVal`:
`undefined` is represented by `Option.none` at every API boundary where the
source distinguishes it, while JavaScript `null` is the explicit value
`JVal.vNull`.  TypeORM `FindOperator` instances are the constructor
`JVal.op tag value`; their own enumerable fields (as seen by object spread
and by the merge) are modelled by the `_type` and `_value` fields, which is
the portion of the operator payload that the repository code and tests
observe (`query.test.ts` matches operators with
`expect.objectContaining(...)` on exactly these fields).
-/

/-- A JavaScript runtime value, as far as the query builder observes it.
Plain objects are association lists in insertion order (JavaScript objects
preserve insertion order of string keys and hold each key at most once). -/
inductive JVal where
  | vNull : JVal
  | vBool (b : Bool) : JVal
  | vNum (n : Int) : JVal
  | vStr (s : String) : JVal
  | vDate (t : Int) : JVal
  | vArr (xs : List JVal) : JVal
  | op (tag : String) (v : JVal) : JVal
  | obj (fields : List (String × JVal)) : JVal

/-- Reading `o[k]` on a plain object: first binding of the key wins
(the lists we build keep each key at most once). -/
def getField : List (String × JVal) → String → Option JVal
  | [], _ => none
  | (k0, v0) :: rest, k => if k0 = k then some v0 else getField rest k

/-- Writing `o[k] = v` on a plain object: an existing key keeps its
position, a new key is appended — JavaScript insertion-order semantics. -/
def setField : List (String × JVal) → String → JVal → List (String × JVal)
  | [], k, v => [(k, v)]
  | (k0, v0) :: rest, k, v =>
      if k0 = k then (k0, v) :: rest else (k0, v0) :: setField rest k v

/-- The own enumerable fields of a value, as object spread `\x7b...o\x7d` and
`for key in o` see them: plain objects expose their fields, a
`FindOperator` exposes its `_type` and `_value` instance fields, every
other value exposes nothing. -/
def fieldsOf : JVal → List (String × JVal)
  | .obj fs => fs
  | .op tag v => [("_type", .vStr tag), ("_value", v)]
  | _ => []

/-- JavaScript truthiness of a defined value (`undefined` is handled by
`Option` at the call sites). -/
def truthy : JVal → Bool
  | .vNull => false
  | .vBool b => b
  | .vNum n => n != 0
  | .vStr s => s != ""
  | _ => true

/-- The nullish-coalescing operator `v ?? d` on a possibly-undefined value:
`undefined` and `null` fall through to the default. -/
def nullish (v : Option JVal) (d : JVal) : JVal :=
  match v with
  | none => d
  | some .vNull => d
  | some x => x

/-- `isPlainObject` from `parse-nested-path.ts`:
`typeof value === 'object' && value !== null && !Array.isArray(value)`.
`FindOperator` instances and `Date` objects are objects in this sense. -/
def isPlainObject : JVal → Bool
  | .obj _ => true
  | .op _ _ => true
  | .vDate _ => true
  | _ => false

/-- `'_type' in value` on a plain object. -/
def hasTypeField (fs : List (String × JVal)) : Bool :=
  fs.any (fun p => p.1 = "_type")

/-- `isSpecialObject` from `parse-nested-path.ts`: a plain object that is a
`FindOperator` instance, or carries a `_type` property, or is a `Date`. -/
def isSpecialObject : JVal → Bool
  | .op _ _ => true
  | .vDate _ => true
  | .obj fs => hasTypeField fs
  | _ => false

mutual

/-- The `for (const key in source)` loop body of `deepMerge` from
`parse-nested-path.ts`.  The accumulator is `result` (initially a copy of
the target); for each source field the merged value is computed from
`result[key]` and `source[key]` and assigned to `result[key]`. -/
def mergeFields : List (String × JVal) → List (String × JVal) → List (String × JVal)
  | tfs, [] => tfs
  | tfs, (k, sv) :: rest =>
      mergeFields (setField tfs k (mergeValue (getField tfs k) sv)) rest

/-- One assignment of the `deepMerge` loop: recurse when both the existing
value and the incoming value are plain objects and the incoming value is
not special (the special-object test is applied to the source side only,
exactly as in the code); otherwise the incoming value replaces the
existing value.  A missing existing value (`undefined`) is never a plain
object, so it is always replaced. -/
def mergeValue (targetValue : Option JVal) (sourceValue : JVal) : JVal :=
  match targetValue with
  | none => sourceValue
  | some tv =>
      match sourceValue with
      | .obj sfs =>
          if isPlainObject tv && !(isSpecialObject (.obj sfs)) then
            .obj (mergeFields (fieldsOf tv) sfs)
          else .obj sfs
      | _ => sourceValue

end

/-- `deepMerge(target, source)` from `parse-nested-path.ts`: spread the
target into a fresh object, then fold the source fields over it.  A
non-object source has no own enumerable fields, so the loop body never
runs and the result is the copy of the target. -/
def deepMerge (target source : JVal) : JVal :=
  match source with
  | .obj sfs => .obj (mergeFields (fieldsOf target) sfs)
  | _ => .obj (fieldsOf target)

/-! ## Path resolution (`src/query/parse-nested-path.ts`) -/

/-- `path.split('.')` at the character level.  `String.splitOn` of core
Lean is not kernel-reducible, so the split is implemented directly; it
agrees with JavaScript `split`, in particular `"".split('.') = [""]`. -/
def splitDotCh : List Char → List String
  | [] => [""]
  | c :: rest =>
      if c = '.' then "" :: splitDotCh rest
      else
        match splitDotCh rest with
        | [] => [String.mk [c]]
        | s :: ss => String.mk (c :: s.toList) :: ss

/-- `parseNestedPath(path)`: the dot-separated segments of a field path. -/
def parseNestedPath (path : String) : List String :=
  splitDotCh path.toList

/-- `isNestedPath(path)`: `path.includes('.')`. -/
def isNestedPath (path : String) : Bool :=
  path.toList.any (fun c => c = '.')

/-- `segments.join('.')` — JavaScript `Array.prototype.join` with a dot
separator, used by `getRelationPath` and by the query builder when it
assembles `setProperty` paths from key lists. -/
def joinSegments : List String → String
  | [] => ""
  | [s] => s
  | s :: rest => s ++ "." ++ joinSegments rest

/-- The loop shared by `buildNestedWhere` and `buildRelationsObject`: wrap
a leaf value in one-field objects from the innermost segment outward. -/
def nestedSingleton (segments : List String) (leaf : JVal) : JVal :=
  segments.foldr (fun seg acc => .obj [(seg, acc)]) leaf

/-- `buildNestedWhere(path, value)`: wrap the leaf value from the innermost
segment outward, `"a.b.c"` with `V` giving `(a: (b: (c: V)))`. -/
def buildNestedWhere (path : String) (value : JVal) : JVal :=
  nestedSingleton (parseNestedPath path) value

/-- `getRelationPath(path)`: the path with its final segment removed, or
null for a single-segment path. -/
def getRelationPath (path : String) : Option String :=
  let segments := parseNestedPath path
  if segments.length ≤ 1 then none
  else some (joinSegments segments.dropLast)

/-- `buildRelationsObject(relationPath)`: the nested relation declaration
terminating in the eager-load marker `true`. -/
def buildRelationsObject (relationPath : String) : JVal :=
  nestedSingleton (parseNestedPath relationPath) (.vBool true)

/-! ## `setProperty` (external dependency `tsds-tools`)

`query.ts` assembles its state with `setProperty(path, value, object)`
from the `tsds-tools` package: an immutable dotted-path write that copies
the object along the path and creates missing intermediate objects.  The
copy-on-write behaviour is pinned by this repository's own tests — the
`whereOr` AND-distribution test of `query.test.ts` only passes because a
branch writing through `setProperty` does not mutate the `where` tree it
shares with its sibling branch and with the parent builder. -/

/-- `setProperty` on an already-split path.  Writing through a missing or
non-object intermediate rebuilds it from its (empty) spread. -/
def setPropertyPath : List String → JVal → JVal → JVal
  | [], value, _ => value
  | k :: rest, value, target =>
      .obj (setField (fieldsOf target) k
        (setPropertyPath rest value ((getField (fieldsOf target) k).getD (.obj []))))

/-- `setProperty(path, value, target)` — split the dotted path, then write. -/
def setProperty (path : String) (value target : JVal) : JVal :=
  setPropertyPath (parseNestedPath path) value target

/-! ## TypeORM operator constructors

The operator catalog consists of TypeORM `FindOperator` factories.  Each
produces an opaque tagged value; the tag names used here are the `_type`
discriminators TypeORM stores and the repository's tests observe. -/

namespace Torm

def Not (v : JVal) : JVal := .op "not" v

def MoreThan (v : JVal) : JVal := .op "moreThan" v

def MoreThanOrEqual (v : JVal) : JVal := .op "moreThanOrEqual" v

def LessThan (v : JVal) : JVal := .op "lessThan" v

def LessThanOrEqual (v : JVal) : JVal := .op "lessThanOrEqual" v

def Between (lo hi : JVal) : JVal := .op "between" (.vArr [lo, hi])

def Like (s : String) : JVal := .op "like" (.vStr s)

def ILike (s : String) : JVal := .op "ilike" (.vStr s)

def In (vs : List JVal) : JVal := .op "in" (.vArr vs)

def IsNull : JVal := .op "isNull" .vNull

def ArrayContains (vs : List JVal) : JVal := .op "arrayContains" (.vArr vs)

def ArrayOverlap (vs : List JVal) : JVal := .op "arrayOverlap" (.vArr vs)

end Torm

/-! ## The query IR builder (`src/query/query.ts`) -/

def DEFAULT_PAGE_SIZE : Int := 20

def DEFAULT_CACHE_TIME : Int := 5 * 1000

/-- The `FindManyOptions` object a fresh builder starts from:
`(cache: DEFAULT_CACHE_TIME, take: DEFAULT_PAGE_SIZE)`. -/
def initialQueryObject : JVal :=
  .obj [("cache", .vNum DEFAULT_CACHE_TIME), ("take", .vNum DEFAULT_PAGE_SIZE)]

/-- Context flags tracking query building state for runtime validation. -/
structure QueryContext where
  insideWhereJoin : Bool
  insideWhereOr : Bool

/-- The open builder: `QueryWithWhere` and its subclasses `Query` and
`PaginatedQuery` share exactly this state (the subclasses add methods,
not fields); the repository handle carries no query state and is
omitted. -/
structure QueryWithWhere where
  query : JVal
  context : QueryContext

/-- `new Query(repository)` — fresh IR, both context flags false. -/
def QueryWithWhere.init : QueryWithWhere :=
  ⟨initialQueryObject, ⟨false, false⟩⟩

/-- The terminal handle returned by `whereIn()` and `whereOr()`.  The class
exposes only `orderByAscending`, `orderByDescending`, `select`,
`fetchRelation`, `loadRelationIds`, `cache` and `toQuery`; it has no
`where*` or `whereJoin` method, so predicate-adding calls on it are
compile-time errors in the source language. -/
structure TerminalQuery where
  query : JVal

/-- `TerminalQuery.from(source)`: a terminal handle over `source.toQuery()`. -/
def TerminalQuery.from (source : QueryWithWhere) : TerminalQuery :=
  ⟨source.query⟩

/-- A sub-builder callback, composed with the `toQuery()` call the parent
performs on its result: it receives the fresh sub-builder and produces
the sub-builder's final `FindManyOptions` object, or propagates the
exception thrown inside the callback. -/
def QueryBuilderFn : Type :=
  QueryWithWhere → Except String JVal

namespace QueryWithWhere

/-- `toQuery()` — return the accumulated IR. -/
def toQuery (s : QueryWithWhere) : JVal := s.query

/-- Error thrown by `whereIn()` when the builder is inside `whereJoin()`. -/
def whereInInsideWhereJoinMessage : String :=
  "whereIn() cannot be used inside whereJoin(). Use the explicit foreign key field instead. Example: Instead of q.whereJoin(\"group\", gq => gq.whereIn(\"id\", ids)), use q.whereIn(\"groupId\", ids)"

/-- Error thrown by `whereIn()` when the builder is inside `whereOr()`. -/
def whereInInsideWhereOrMessage : String :=
  "whereIn() cannot be used inside whereOr(). Restructure your query to use multiple whereEqualTo() conditions instead. Example: Instead of whereOr(q => q.whereIn(\"status\", [\"a\", \"b\"])), use whereOr(q => q.whereEqualTo(\"status\", \"a\"), q => q.whereEqualTo(\"status\", \"b\"))"

/-- `setWhere(key, where)`: drop falsy/undefined values and empty keys;
when `where` is currently a list of OR branches, write the predicate into
every branch; otherwise write it at `where.<key>`. -/
def setWhere (s : QueryWithWhere) (key : String) (w : Option JVal) : QueryWithWhere :=
  match w with
  | none => s
  | some wv =>
      if !(truthy wv) || key = "" then s
      else
        match getField (fieldsOf s.query) "where" with
        | some (.vArr ws) =>
            { s with query := .obj (setField (fieldsOf s.query) "where"
                (.vArr (ws.map (fun q => setProperty key wv q)))) }
        | _ => { s with query := setProperty ("where." ++ key) wv s.query }

/-- `setNestedWhere(path, value)`: build the nested predicate fragment,
deep-merge the relation declaration for the relation prefix into
`relations`, then deep-merge the fragment into `where` (into every branch
when `where` is an OR list). -/
def setNestedWhere (s : QueryWithWhere) (path : String) (value : JVal) : QueryWithWhere :=
  let nestedWhere := buildNestedWhere path value
  let s1 :=
    match getRelationPath path with
    | some relationPath =>
        { s with query := .obj (setField (fieldsOf s.query) "relations"
            (deepMerge ((getField (fieldsOf s.query) "relations").getD (.obj []))
              (buildRelationsObject relationPath))) }
    | none => s
  match getField (fieldsOf s1.query) "where" with
  | some (.vArr ws) =>
      { s1 with query := .obj (setField (fieldsOf s1.query) "where"
          (.vArr (ws.map (fun w => deepMerge w nestedWhere)))) }
  | some w =>
      { s1 with query := .obj (setField (fieldsOf s1.query) "where" (deepMerge w nestedWhere)) }
  | none =>
      { s1 with query := .obj (setField (fieldsOf s1.query) "where"
          (deepMerge (.obj []) nestedWhere)) }

/-- `whereIsNull(key)` — nested-aware null check. -/
def whereIsNull (s : QueryWithWhere) (key : String) : QueryWithWhere :=
  let operator := Torm.IsNull
  if isNestedPath key then s.setNestedWhere key operator else s.setWhere key (some operator)

/-- `whereIsNotNull(key)` — nested-aware negated null check. -/
def whereIsNotNull (s : QueryWithWhere) (key : String) : QueryWithWhere :=
  let operator := Torm.Not Torm.IsNull
  if isNestedPath key then s.setNestedWhere key operator else s.setWhere key (some operator)

/-- `whereEqualTo(key, value)`: an undefined value delegates to
`whereIsNull`; a defined value is routed by `isNestedPath`. -/
def whereEqualTo (s : QueryWithWhere) (key : String) (value : Option JVal) : QueryWithWhere :=
  match value with
  | none => s.whereIsNull key
  | some v => if isNestedPath key then s.setNestedWhere key v else s.setWhere key (some v)

/-- `whereNotEqualTo(key, value)`. -/
def whereNotEqualTo (s : QueryWithWhere) (key : String) (value : Option JVal) : QueryWithWhere :=
  match value with
  | none => s.whereIsNotNull key
  | some v =>
      if isNestedPath key then s.setNestedWhere key (Torm.Not v)
      else s.setWhere key (some (Torm.Not v))

/-- `whereMoreThan(key, value)` — the operator is built from `value ?? 0`. -/
def whereMoreThan (s : QueryWithWhere) (key : String) (value : Option JVal) : QueryWithWhere :=
  let operator := Torm.MoreThan (nullish value (.vNum 0))
  if isNestedPath key then s.setNestedWhere key operator else s.setWhere key (some operator)

/-- `whereNotMoreThan(key, value)`. -/
def whereNotMoreThan (s : QueryWithWhere) (key : String) (value : Option JVal) : QueryWithWhere :=
  let operator := Torm.Not (Torm.MoreThan (nullish value (.vNum 0)))
  if isNestedPath key then s.setNestedWhere key operator else s.setWhere key (some operator)

/-- `whereMoreThanOrEqual(key, value)`. -/
def whereMoreThanOrEqual (s : QueryWithWhere) (key : String) (value : Option JVal) : QueryWithWhere :=
  let operator := Torm.MoreThanOrEqual (nullish value (.vNum 0))
  if isNestedPath key then s.setNestedWhere key operator else s.setWhere key (some operator)

/-- `whereNotMoreThanOrEqual(key, value)`. -/
def whereNotMoreThanOrEqual (s : QueryWithWhere) (key : String) (value : Option JVal) :
    QueryWithWhere :=
  let operator := Torm.Not (Torm.MoreThanOrEqual (nullish value (.vNum 0)))
  if isNestedPath key then s.setNestedWhere key operator else s.setWhere key (some operator)

/-- `whereLessThan(key, value)`. -/
def whereLessThan (s : QueryWithWhere) (key : String) (value : Option JVal) : QueryWithWhere :=
  let operator := Torm.LessThan (nullish value (.vNum 0))
  if isNestedPath key then s.setNestedWhere key operator else s.setWhere key (some operator)

/-- `whereNotLessThan(key, value)`. -/
def whereNotLessThan (s : QueryWithWhere) (key : String) (value : Option JVal) : QueryWithWhere :=
  let operator := Torm.Not (Torm.LessThan (nullish value (.vNum 0)))
  if isNestedPath key then s.setNestedWhere key operator else s.setWhere key (some operator)

/-- `whereLessThanOrEqual(key, value)`. -/
def whereLessThanOrEqual (s : QueryWithWhere) (key : String) (value : Option JVal) :
    QueryWithWhere :=
  let operator := Torm.LessThanOrEqual (nullish value (.vNum 0))
  if isNestedPath key then s.setNestedWhere key operator else s.setWhere key (some operator)

/-- `whereNotLessThanOrEqual(key, value)`. -/
def whereNotLessThanOrEqual (s : QueryWithWhere) (key : String) (value : Option JVal) :
    QueryWithWhere :=
  let operator := Torm.Not (Torm.LessThanOrEqual (nullish value (.vNum 0)))
  if isNestedPath key then s.setNestedWhere key operator else s.setWhere key (some operator)

/-- `whereBetween(key, from, to)` — both bounds default to 0 via `??`. -/
def whereBetween (s : QueryWithWhere) (key : String) (fromV toV : Option JVal) :
    QueryWithWhere :=
  let operator := Torm.Between (nullish fromV (.vNum 0)) (nullish toV (.vNum 0))
  if isNestedPath key then s.setNestedWhere key operator else s.setWhere key (some operator)

/-- `whereIn(key, value)`: guarded against use inside `whereJoin` and
inside `whereOr`; on success writes the membership operator (nested-aware)
and returns a `TerminalQuery` over the same IR. -/
def whereIn (s : QueryWithWhere) (key : String) (value : Option (List JVal)) :
    Except String TerminalQuery :=
  if s.context.insideWhereJoin then .error whereInInsideWhereJoinMessage
  else if s.context.insideWhereOr then .error whereInInsideWhereOrMessage
  else
    let operator := Torm.In (value.getD [])
    let s1 := if isNestedPath key then s.setNestedWhere key operator
              else s.setWhere key (some operator)
    .ok (TerminalQuery.from s1)

/-- `whereJoin(key, queryBuilder)`: run the callback on a fresh sub-builder
flagged inside-join, register `relations.<key>` from the sub-result
(defaulting to the eager-load marker), then merge the sub-result's
predicate tree at `key` via `setWhere`. -/
def whereJoin (s : QueryWithWhere) (key : String) (queryBuilder : QueryBuilderFn) :
    Except String QueryWithWhere := do
  let subQuery : QueryWithWhere := ⟨initialQueryObject, ⟨true, false⟩⟩
  let result ← queryBuilder subQuery
  let rels := (getField (fieldsOf result) "relations").getD (.vBool true)
  let s1 := { s with query := setProperty ("relations." ++ key) rels s.query }
  .ok (s1.setWhere key (getField (fieldsOf result) "where"))

/-- `whereOr(...queryBuilders)`: each branch runs on a fresh sub-builder
flagged inside-or whose `where` starts from the parent's current `where`;
the parent's `where` is then replaced by the list of branch `where`
results and a `TerminalQuery` is returned. -/
def whereOr (s : QueryWithWhere) (queryBuilders : List QueryBuilderFn) :
    Except String TerminalQuery := do
  let results ← queryBuilders.mapM (fun queryBuilder => do
    let base : QueryWithWhere := ⟨initialQueryObject, ⟨false, true⟩⟩
    let subQuery : QueryWithWhere :=
      match getField (fieldsOf s.query) "where" with
      | some w => { base with query := .obj (setField (fieldsOf base.query) "where" w) }
      | none => base
    let resQuery ← queryBuilder subQuery
    pure (getField (fieldsOf resQuery) "where"))
  let s1 := { s with query := setProperty "where" (.vArr (results.filterMap id)) s.query }
  .ok (TerminalQuery.from s1)

/-- `orderByAscending(key)` (defined on the `Query` subclass, same state). -/
def orderByAscending (s : QueryWithWhere) (key : String) : QueryWithWhere :=
  { s with query := setProperty ("order." ++ key) (.vStr "ASC") s.query }

/-- `orderByDescending(key)`. -/
def orderByDescending (s : QueryWithWhere) (key : String) : QueryWithWhere :=
  { s with query := setProperty ("order." ++ key) (.vStr "DESC") s.query }

/-- `select(key)`. -/
def select (s : QueryWithWhere) (key : String) : QueryWithWhere :=
  { s with query := setProperty ("select." ++ key) (.vBool true) s.query }

/-- `fetchRelation(key1, key2?, key3?, key4?)`: join the defined keys into
one relation path under `relations`. -/
def fetchRelation (s : QueryWithWhere) (key1 : String) (key2 key3 key4 : Option String) :
    QueryWithWhere :=
  let path := joinSegments ("relations" :: key1 :: [key2, key3, key4].filterMap id)
  { s with query := setProperty path (.vBool true) s.query }

/-- `loadRelationIds(flag)`. -/
def loadRelationIds (s : QueryWithWhere) (flag : Bool) : QueryWithWhere :=
  { s with query := .obj (setField (fieldsOf s.query) "loadRelationIds" (.vBool flag)) }

/-- `cache(value)`. -/
def cache (s : QueryWithWhere) (c : JVal) : QueryWithWhere :=
  { s with query := .obj (setField (fieldsOf s.query) "cache" c) }

end QueryWithWhere

namespace TerminalQuery

/-- `toQuery()` on the terminal handle. -/
def toQuery (t : TerminalQuery) : JVal := t.query

/-- `orderByAscending(key)` on the terminal handle. -/
def orderByAscending (t : TerminalQuery) (key : String) : TerminalQuery :=
  ⟨setProperty ("order." ++ key) (.vStr "ASC") t.query⟩

/-- `orderByDescending(key)` on the terminal handle. -/
def orderByDescending (t : TerminalQuery) (key : String) : TerminalQuery :=
  ⟨setProperty ("order." ++ key) (.vStr "DESC") t.query⟩

/-- `select(key)` on the terminal handle. -/
def select (t : TerminalQuery) (key : String) : TerminalQuery :=
  ⟨setProperty ("select." ++ key) (.vBool true) t.query⟩

/-- `fetchRelation(key1, key2?, key3?, key4?)` on the terminal handle. -/
def fetchRelation (t : TerminalQuery) (key1 : String) (key2 key3 key4 : Option String) :
    TerminalQuery :=
  ⟨setProperty (joinSegments ("relations" :: key1 :: [key2, key3, key4].filterMap id))
    (.vBool true) t.query⟩

/-- `loadRelationIds(flag)` on the terminal handle. -/
def loadRelationIds (t : TerminalQuery) (flag : Bool) : TerminalQuery :=
  ⟨.obj (setField (fieldsOf t.query) "loadRelationIds" (.vBool flag))⟩

/-- `cache(value)` on the terminal handle. -/
def cache (t : TerminalQuery) (c : JVal) : TerminalQuery :=
  ⟨.obj (setField (fieldsOf t.query) "cache" c)⟩

end TerminalQuery

/-- The complete method surface of the `TerminalQuery` class (besides the
read-only `toQuery`), one constructor per method.  The class declares no
other member, so this enumeration is the whole set of state-changing
operations available after `whereIn()`/`whereOr()`. -/
inductive TerminalOp where
  | orderByAscending (key : String) : TerminalOp
  | orderByDescending (key : String) : TerminalOp
  | select (key : String) : TerminalOp
  | fetchRelation (key1 : String) (key2 key3 key4 : Option String) : TerminalOp
  | loadRelationIds (flag : Bool) : TerminalOp
  | cache (c : JVal) : TerminalOp

/-- Apply a terminal-surface method to a terminal handle. -/
def applyTerminalOp (o : TerminalOp) (t : TerminalQuery) : TerminalQuery :=
  match o with
  | .orderByAscending key => t.orderByAscending key
  | .orderByDescending key => t.orderByDescending key
  | .select key => t.select key
  | .fetchRelation k1 k2 k3 k4 => t.fetchRelation k1 k2 k3 k4
  | .loadRelationIds flag => t.loadRelationIds flag
  | .cache c => t.cache c

/-! ## Pagination cursor codec (`src/pagination/pagination.ts`)

`toPaginationToken` serialises `[skip, take]` with `JSON.stringify` and
base64-encodes the result; `decodeNextToken` reverses this through
`fromBase64`, which throws on a payload `JSON.parse` rejects.  JSON and
base64 are modelled executably below; JSON numbers are modelled as
integers and string escapes are not interpreted, which covers every
payload this codec produces. -/

/-- Decimal digits of a natural number (fuel-bounded helper; the fuel is
always sufficient at call sites since a number has far fewer digits than
`n + 1`). -/
def natDigits (fuel n : Nat) : List Char :=
  match fuel with
  | 0 => []
  | fuel + 1 =>
      if n < 10 then [Char.ofNat (48 + n)]
      else natDigits fuel (n / 10) ++ [Char.ofNat (48 + n % 10)]

/-- Decimal rendering of an integer, as `JSON.stringify` renders it. -/
def intToString (n : Int) : String :=
  if n < 0 then String.mk ('-' :: natDigits n.natAbs n.natAbs)
  else String.mk (natDigits (n.natAbs + 1) n.natAbs)

mutual

/-- `JSON.stringify` on the modelled values. -/
def jsonStringify : JVal → String
  | .vNull => "null"
  | .vBool true => "true"
  | .vBool false => "false"
  | .vNum n => intToString n
  | .vStr s => "\"" ++ s ++ "\""
  | .vDate t => "\"" ++ intToString t ++ "\""
  | .vArr xs => "[" ++ jsonStringifyList xs ++ "]"
  | .op tag v => "\x7b\"_type\":\"" ++ tag ++ "\",\"_value\":" ++ jsonStringify v ++ "\x7d"
  | .obj fs => "\x7b" ++ jsonStringifyFields fs ++ "\x7d"

def jsonStringifyList : List JVal → String
  | [] => ""
  | [x] => jsonStringify x
  | x :: xs => jsonStringify x ++ "," ++ jsonStringifyList xs

def jsonStringifyFields : List (String × JVal) → String
  | [] => ""
  | [(k, v)] => "\"" ++ k ++ "\":" ++ jsonStringify v
  | (k, v) :: fs => "\"" ++ k ++ "\":" ++ jsonStringify v ++ "," ++ jsonStringifyFields fs

end

/-- The base64 alphabet character for a sextet value. -/
def b64Char (n : Nat) : Char :=
  "ABCDEFGHIJKLMNOPQRSTUVWXYZabcdefghijklmnopqrstuvwxyz0123456789+/".toList.getD n '?'

/-- The sextet value of a base64 alphabet character, none for characters
outside the alphabet (Node's decoder skips those). -/
def b64Value (c : Char) : Option Nat :=
  match ("ABCDEFGHIJKLMNOPQRSTUVWXYZabcdefghijklmnopqrstuvwxyz0123456789+/".toList.indexOf? c) with
  | some i => some i
  | none => none

/-- Standard base64 encoding of a byte list, with padding. -/
def b64EncodeBytes : List Nat → List Char
  | [] => []
  | [b1] => [b64Char (b1 / 4), b64Char (b1 % 4 * 16), '=', '=']
  | [b1, b2] => [b64Char (b1 / 4), b64Char (b1 % 4 * 16 + b2 / 16), b64Char (b2 % 16 * 4), '=']
  | b1 :: b2 :: b3 :: rest =>
      b64Char (b1 / 4) :: b64Char (b1 % 4 * 16 + b2 / 16) ::
        b64Char (b2 % 16 * 4 + b3 / 64) :: b64Char (b3 % 64) :: b64EncodeBytes rest

/-- Reassemble bytes from decoded sextets, dropping a trailing group that
does not complete a byte — Node's lenient base64 decoding. -/
def b64DecodeSextets : List Nat → List Nat
  | s1 :: s2 :: s3 :: s4 :: rest =>
      (s1 * 4 + s2 / 16) :: (s2 % 16 * 16 + s3 / 4) :: (s3 % 4 * 64 + s4) :: b64DecodeSextets rest
  | [s1, s2] => [s1 * 4 + s2 / 16]
  | [s1, s2, s3] => [s1 * 4 + s2 / 16, s2 % 16 * 16 + s3 / 4]
  | _ => []

/-- `Buffer.from(str).toString('base64')` for the code points the codec
produces (all ASCII, where the UTF-8 byte is the code point). -/
def b64Encode (s : String) : String :=
  String.mk (b64EncodeBytes (s.toList.map Char.toNat))

/-- `Buffer.from(b64, 'base64').toString()`: skip non-alphabet characters
(including padding), regroup the sextets into bytes. -/
def b64Decode (s : String) : String :=
  String.mk ((b64DecodeSextets (s.toList.filterMap b64Value)).map Char.ofNat)

/-- JSON whitespace skipping. -/
def skipWs : List Char → List Char
  | c :: rest => if c = ' ' || c = '\t' || c = '\n' || c = '\r' then skipWs rest else c :: rest
  | [] => []

/-- Parse a run of decimal digits, returning the value and the rest. -/
def parseDigits (acc : Nat) : List Char → (Nat × List Char)
  | c :: rest =>
      if c.isDigit then parseDigits (acc * 10 + (c.toNat - 48)) rest else (acc, c :: rest)
  | [] => (acc, [])

/-- Parse a JSON string body up to the closing quote.  Escape sequences
are not interpreted (no payload of this codec contains one; a backslash
makes the parse fail). -/
def parseJsonString (acc : List Char) : List Char → Option (JVal × List Char)
  | [] => none
  | c :: rest =>
      if c = '"' then some (.vStr (String.mk acc.reverse), rest)
      else if c = '\\' then none
      else parseJsonString (c :: acc) rest

mutual

/-- Parse one JSON value.  The fuel argument strictly decreases on every
recursive call; the top-level entry point supplies more fuel than the
input has characters, so the fuel never runs out there. -/
def parseJsonValue (fuel : Nat) (cs : List Char) : Option (JVal × List Char) :=
  match fuel with
  | 0 => none
  | fuel + 1 =>
      match skipWs cs with
      | 'n' :: 'u' :: 'l' :: 'l' :: rest => some (.vNull, rest)
      | 't' :: 'r' :: 'u' :: 'e' :: rest => some (.vBool true, rest)
      | 'f' :: 'a' :: 'l' :: 's' :: 'e' :: rest => some (.vBool false, rest)
      | '"' :: rest => parseJsonString [] rest
      | '[' :: rest =>
          (match skipWs rest with
           | ']' :: rest2 => some (.vArr [], rest2)
           | rest2 => parseJsonArr fuel [] rest2)
      | '-' :: c :: rest =>
          if c.isDigit then
            let (n, rest2) := parseDigits (c.toNat - 48) rest
            some (.vNum (-(n : Int)), rest2)
          else none
      | c :: rest =>
          if c.isDigit then
            let (n, rest2) := parseDigits (c.toNat - 48) rest
            some (.vNum (n : Int), rest2)
          else none
      | [] => none

/-- Parse the elements of a non-empty JSON array after its opening
bracket. -/
def parseJsonArr (fuel : Nat) (acc : List JVal) (cs : List Char) : Option (JVal × List Char) :=
  match fuel with
  | 0 => none
  | fuel + 1 =>
      match parseJsonValue fuel cs with
      | none => none
      | some (v, rest) =>
          match skipWs rest with
          | ',' :: rest2 => parseJsonArr fuel (acc ++ [v]) rest2
          | ']' :: rest2 => some (.vArr (acc ++ [v]), rest2)
          | _ => none

end

/-- `JSON.parse`, returning none where the JavaScript function throws.
Objects and escape sequences are outside the payloads this codec ever
produces and parse as failures here; JSON numbers are modelled as
integers. -/
def jsonParse (s : String) : Option JVal :=
  match parseJsonValue (s.toList.length + 1) s.toList with
  | some (v, rest) => if skipWs rest = [] then some v else none
  | none => none

/-- `toBase64(object)`: `Buffer.from(JSON.stringify(object)).toString('base64')`. -/
def toBase64 (v : JVal) : String :=
  b64Encode (jsonStringify v)

/-- `fromBase64(base64String)`: null/undefined input yields undefined; a
payload `JSON.parse` rejects throws the invalid-base64 error; otherwise
the parsed value is returned. -/
def fromBase64 (s : Option String) : Except String (Option JVal) :=
  match s with
  | none => .ok none
  | some str =>
      match jsonParse (b64Decode str) with
      | some v => .ok (some v)
      | none => .error "Invalid base64 string"

/-- `toPaginationToken((skip = 0, take = 20))`: base64 of the JSON pair
`[skip, take]`, with destructuring defaults for absent fields. -/
def toPaginationToken (skip take : Option Int) : String :=
  toBase64 (.vArr [.vNum (skip.getD 0), .vNum (take.getD 20)])

/-- `decodeNextToken(next)`: a falsy token (null, undefined, empty string)
decodes to null; otherwise `fromBase64` runs and any exception it throws
is replaced by the invalid-next-token error.  The successful result is
cast, not validated, in the source (`as [number, number]`), so it is any
parsed JSON value here. -/
def decodeNextToken (next : Option String) : Except String (Option JVal) :=
  match next with
  | none => .ok none
  | some str =>
      if str = "" then .ok none
      else
        match fromBase64 (some str) with
        | .ok v => .ok v
        | .error _ => .error "Invalid next token"

/-! ## Tree equivalence

JavaScript object comparison in the specification (and in the repository's
tests, via `toEqual`) is insensitive to the insertion order of object
keys.  `SameTree` is that equivalence: values are identical except that
plain-object fields may be stored in different orders, compared
pointwise by key. -/

/-- Deep equality of modelled values up to object key order. -/
inductive SameTree : JVal → JVal → Prop where
  | refl (v : JVal) : SameTree v v
  | obj (f1 f2 : List (String × JVal))
      (hdom : ∀ k, (getField f1 k).isSome = (getField f2 k).isSome)
      (hval : ∀ k v1 v2, getField f1 k = some v1 → getField f2 k = some v2 → SameTree v1 v2) :
      SameTree (.obj f1) (.obj f2)

/-- Equivalence of possibly-missing values. -/
def SameTreeOpt : Option JVal → Option JVal → Prop
  | some v1, some v2 => SameTree v1 v2
  | none, none => True
  | _, _ => False

/-! # Theorems -/

theorem getField_setField_self (fs : List (String × JVal)) (k : String) (v : JVal) :
    getField (setField fs k v) k = some v := by
  induction fs with
  | nil => simp [getField, setField]
  | cons hd tl ih =>
      obtain ⟨k0, v0⟩ := hd
      by_cases h : k0 = k
      · simp [getField, setField, h]
      · simp [getField, setField, h, ih]

theorem getField_setField_ne (fs : List (String × JVal)) (k k2 : String) (v : JVal)
    (h : k ≠ k2) : getField (setField fs k v) k2 = getField fs k2 := by
  induction fs with
  | nil => simp [getField, setField, h]
  | cons hd tl ih =>
      obtain ⟨k0, v0⟩ := hd
      by_cases h0 : k0 = k
      · subst h0
        simp [getField, setField, h]
      · simp only [setField, if_neg h0, getField]
        by_cases h2 : k0 = k2
        · simp [h2]
        · simp [h2, ih]

theorem sameTree_obj_single (c : String) (x y : JVal) (h : SameTree x y) :
    SameTree (.obj [(c, x)]) (.obj [(c, y)]) := by
  refine SameTree.obj _ _ (fun k => ?_) (fun k v1 v2 h1 h2 => ?_)
  · by_cases hk : c = k <;> simp [getField, hk]
  · by_cases hk : c = k
    · simp [getField, hk] at h1 h2
      rw [← h1, ← h2]
      exact h
    · simp [getField, hk] at h1

theorem sameTree_obj_two_swap (a b : String) (x y : JVal) (hab : a ≠ b) :
    SameTree (.obj [(a, x), (b, y)]) (.obj [(b, y), (a, x)]) := by
  have hba : ¬ b = a := fun h => hab h.symm
  refine SameTree.obj _ _ (fun k => ?_) (fun k v1 v2 h1 h2 => ?_)
  · by_cases hk : a = k
    · subst hk
      simp [getField, hba]
    · by_cases hk2 : b = k <;> simp [getField, hk, hk2]
  · by_cases hk : a = k
    · subst hk
      simp only [getField, if_pos rfl] at h1
      simp only [getField, if_neg hba, if_pos rfl] at h2
      injection h1 with h1
      injection h2 with h2
      rw [← h1, ← h2]
      exact SameTree.refl _
    · by_cases hk2 : b = k
      · subst hk2
        simp only [getField, if_neg hk, if_pos rfl] at h1
        simp only [getField, if_pos rfl] at h2
        injection h1 with h1
        injection h2 with h2
        rw [← h1, ← h2]
        exact SameTree.refl _
      · simp [getField, hk, hk2] at h1

theorem nestedSingleton_cons (s : String) (l : List String) (v : JVal) :
    nestedSingleton (s :: l) v = .obj [(s, nestedSingleton l v)] := rfl

theorem deepMerge_empty_singleton (s : String) (l : List String) (v : JVal) :
    deepMerge (.obj []) (nestedSingleton (s :: l) v) = nestedSingleton (s :: l) v := by
  simp [deepMerge, nestedSingleton_cons, mergeFields, mergeValue, getField, setField]

theorem getField_single_self (c : String) (x : JVal) : getField [(c, x)] c = some x := by
  simp [getField]

theorem setField_single_self (c : String) (x v : JVal) : setField [(c, x)] c v = [(c, v)] := by
  simp [setField]

theorem mergeValue_some_obj (x : JVal) (yfs : List (String × JVal))
    (hX : isPlainObject x = true) (hY : hasTypeField yfs = false) :
    mergeValue (some x) (.obj yfs) = .obj (mergeFields (fieldsOf x) yfs) := by
  have h : mergeValue (some x) (.obj yfs) =
      if isPlainObject x && !(isSpecialObject (.obj yfs)) then .obj (mergeFields (fieldsOf x) yfs)
      else .obj yfs := rfl
  have h2 : isSpecialObject (.obj yfs) = hasTypeField yfs := rfl
  rw [h, hX, h2, hY]
  simp

theorem deepMerge_single_key (c : String) (x : JVal) (yfs : List (String × JVal))
    (hX : isPlainObject x = true) (hY : hasTypeField yfs = false) :
    deepMerge (.obj [(c, x)]) (.obj [(c, .obj yfs)]) = .obj [(c, deepMerge x (.obj yfs))] := by
  have h1 : deepMerge (.obj [(c, x)]) (.obj [(c, .obj yfs)]) =
      .obj (setField [(c, x)] c (mergeValue (getField [(c, x)] c) (.obj yfs))) := rfl
  rw [h1, getField_single_self, mergeValue_some_obj x yfs hX hY, setField_single_self]
  rfl

theorem deepMerge_distinct_key (a b : String) (x y : JVal) (hab : ¬ a = b) :
    deepMerge (.obj [(a, x)]) (.obj [(b, y)]) = .obj [(a, x), (b, y)] := by
  have h1 : deepMerge (.obj [(a, x)]) (.obj [(b, y)]) =
      .obj (setField [(a, x)] b (mergeValue (getField [(a, x)] b) y)) := rfl
  have h2 : getField [(a, x)] b = none := by simp [getField, hab]
  have h3 : setField [(a, x)] b (mergeValue none y) = [(a, x), (b, y)] := by
    have hmv : mergeValue none y = y := by cases y <;> rfl
    simp [setField, hab, hmv]
  rw [h1, h2, h3]

/-- Merging the same relation declaration twice is the identity: the
recursion walks the shared spine and the leaf marker replaces the leaf
marker. -/
theorem deepMerge_relSingleton_self (rest : List String) :
    ∀ c : String, (∀ s ∈ rest, s ≠ "_type") →
      deepMerge (nestedSingleton (c :: rest) (.vBool true))
          (nestedSingleton (c :: rest) (.vBool true)) =
        nestedSingleton (c :: rest) (.vBool true) := by
  induction rest with
  | nil =>
      intro c _
      have h1 : deepMerge (nestedSingleton [c] (.vBool true)) (nestedSingleton [c] (.vBool true)) =
          .obj (setField [(c, .vBool true)] c
            (mergeValue (getField [(c, .vBool true)] c) (.vBool true))) := rfl
      rw [h1, getField_single_self]
      have h2 : mergeValue (some (.vBool true)) (.vBool true) = .vBool true := rfl
      rw [h2, setField_single_self]
      rfl
  | cons r rest2 ih =>
      intro c hr
      have hrt : hasTypeField [(r, nestedSingleton rest2 (.vBool true))] = false := by
        simp [hasTypeField, hr r (List.mem_cons_self r rest2)]
      rw [nestedSingleton_cons c, nestedSingleton_cons r]
      rw [deepMerge_single_key c (.obj [(r, nestedSingleton rest2 (.vBool true))])
        [(r, nestedSingleton rest2 (.vBool true))] rfl hrt]
      rw [← nestedSingleton_cons r, ih r (fun s hs => hr s (List.mem_cons_of_mem r hs))]

/-- The central commutation fact: merging two nested-path singletons that
share the prefix `pre` and then diverge (`a ≠ b`) produces, in either
order, the same tree up to object key order.  The tail segments must not
be the reserved `_type` key the merge treats as an operator marker. -/
theorem mergeSingleton_comm (pre : List String) (a b : String) (α β : List String)
    (u w : JVal) (hab : a ≠ b)
    (hA : ∀ s ∈ (pre ++ [a]).tail, s ≠ "_type")
    (hB : ∀ s ∈ (pre ++ [b]).tail, s ≠ "_type") :
    SameTree
      (deepMerge (nestedSingleton (pre ++ a :: α) u) (nestedSingleton (pre ++ b :: β) w))
      (deepMerge (nestedSingleton (pre ++ b :: β) w) (nestedSingleton (pre ++ a :: α) u)) := by
  induction pre with
  | nil =>
      simp only [List.nil_append, nestedSingleton_cons]
      rw [deepMerge_distinct_key a b _ _ hab,
        deepMerge_distinct_key b a _ _ (fun h => hab h.symm)]
      exact sameTree_obj_two_swap a b _ _ hab
  | cons c rest ih =>
      simp only [List.cons_append, List.tail_cons] at hA hB
      obtain ⟨ha1, ta1, hA1⟩ : ∃ h t, rest ++ a :: α = h :: t := by
        cases rest <;> exact ⟨_, _, rfl⟩
      obtain ⟨hb1, tb1, hB1⟩ : ∃ h t, rest ++ b :: β = h :: t := by
        cases rest <;> exact ⟨_, _, rfl⟩
      have hha : ha1 ≠ "_type" := by
        cases rest with
        | nil =>
            injection hA1 with h1 _
            exact h1 ▸ hA a (by simp)
        | cons r rest2 =>
            injection hA1 with h1 _
            exact h1 ▸ hA r (by simp)
      have hhb : hb1 ≠ "_type" := by
        cases rest with
        | nil =>
            injection hB1 with h1 _
            exact h1 ▸ hB b (by simp)
        | cons r rest2 =>
            injection hB1 with h1 _
            exact h1 ▸ hB r (by simp)
      simp only [List.cons_append, nestedSingleton_cons]
      rw [hA1, hB1, nestedSingleton_cons ha1, nestedSingleton_cons hb1]
      rw [deepMerge_single_key c (.obj [(ha1, nestedSingleton ta1 u)])
          [(hb1, nestedSingleton tb1 w)] rfl (by simp [hasTypeField, hhb]),
        deepMerge_single_key c (.obj [(hb1, nestedSingleton tb1 w)])
          [(ha1, nestedSingleton ta1 u)] rfl (by simp [hasTypeField, hha])]
      apply sameTree_obj_single
      rw [← nestedSingleton_cons ha1, ← nestedSingleton_cons hb1, ← hA1, ← hB1]
      exact ih (fun s hs => hA s (List.mem_of_mem_tail hs))
        (fun s hs => hB s (List.mem_of_mem_tail hs))

theorem toList_append (a b : String) : (a ++ b).toList = a.toList ++ b.toList := by
  cases a
  cases b
  rfl

theorem splitDotCh_append_dot (cs : List Char) (l : List Char)
    (h : ∀ c ∈ cs, c ≠ '.') :
    splitDotCh (cs ++ '.' :: l) = String.mk cs :: splitDotCh l := by
  induction cs with
  | nil => rfl
  | cons c cs2 ih =>
      have hc : ¬ c = '.' := h c (List.mem_cons_self c cs2)
      have ih2 := ih (fun x hx => h x (List.mem_cons_of_mem c hx))
      simp only [List.cons_append, splitDotCh, if_neg hc, List.append_eq, ih2]
      rfl

theorem splitDotCh_nodot (cs : List Char) (h : ∀ c ∈ cs, c ≠ '.') :
    splitDotCh cs = [String.mk cs] := by
  induction cs with
  | nil => rfl
  | cons c cs2 ih =>
      have hc : ¬ c = '.' := h c (List.mem_cons_self c cs2)
      have ih2 := ih (fun x hx => h x (List.mem_cons_of_mem c hx))
      simp only [splitDotCh, if_neg hc, ih2]
      rfl

/-- `split('.')` undoes `join('.')` on a non-empty list of dot-free
segments. -/
theorem parseNestedPath_joinSegments (l : List String) (hne : l ≠ [])
    (hdot : ∀ s ∈ l, ∀ c ∈ s.toList, c ≠ '.') :
    parseNestedPath (joinSegments l) = l := by
  induction l with
  | nil => exact absurd rfl hne
  | cons x xs ih =>
      cases xs with
      | nil =>
          show splitDotCh x.toList = [x]
          rw [splitDotCh_nodot x.toList (hdot x (List.mem_cons_self x []))]
          rfl
      | cons y ys =>
          have hx : ∀ c ∈ x.toList, c ≠ '.' := hdot x (List.mem_cons_self x (y :: ys))
          have hrest : parseNestedPath (joinSegments (y :: ys)) = y :: ys :=
            ih (by simp) (fun s hs => hdot s (List.mem_cons_of_mem x hs))
          show splitDotCh (x ++ "." ++ joinSegments (y :: ys)).toList = x :: y :: ys
          rw [toList_append, toList_append]
          have hdotch : ("." : String).toList = ['.'] := rfl
          rw [hdotch, List.append_assoc, List.singleton_append]
          rw [splitDotCh_append_dot x.toList _ hx]
          exact congrArg₂ List.cons rfl hrest

/-- Splitting a path of the form `pre ++ "." ++ k` where `pre` is
dot-free peels off `pre` as the first segment. -/
theorem parseNestedPath_prefix_dot (pre k : String)
    (h : ∀ c ∈ pre.toList, c ≠ '.') :
    parseNestedPath (pre ++ "." ++ k) = pre :: parseNestedPath k := by
  show splitDotCh (pre ++ "." ++ k).toList = pre :: splitDotCh k.toList
  rw [toList_append, toList_append]
  have hdotch : ("." : String).toList = ['.'] := rfl
  rw [hdotch, List.append_assoc, List.singleton_append]
  rw [splitDotCh_append_dot pre.toList _ h]
  rfl

theorem parseNestedPath_order (k : String) :
    parseNestedPath ("order." ++ k) = "order" :: parseNestedPath k :=
  parseNestedPath_prefix_dot "order" k (by decide)

theorem parseNestedPath_select (k : String) :
    parseNestedPath ("select." ++ k) = "select" :: parseNestedPath k :=
  parseNestedPath_prefix_dot "select" k (by decide)

theorem parseNestedPath_relations (k : String) :
    parseNestedPath ("relations." ++ k) = "relations" :: parseNestedPath k :=
  parseNestedPath_prefix_dot "relations" k (by decide)

theorem parseNestedPath_where (k : String) :
    parseNestedPath ("where." ++ k) = "where" :: parseNestedPath k :=
  parseNestedPath_prefix_dot "where" k (by decide)

/-- A `setProperty` write whose path starts with a key other than `k2`
leaves the field `k2` of the target unchanged. -/
theorem getField_setPropertyPath_cons_ne (k : String) (rest : List String) (v o : JVal)
    (k2 : String) (h : k ≠ k2) :
    getField (fieldsOf (setPropertyPath (k :: rest) v o)) k2 = getField (fieldsOf o) k2 := by
  show getField (setField (fieldsOf o) k _) k2 = getField (fieldsOf o) k2
  exact getField_setField_ne _ k k2 _ h

/-- No operation of the terminal surface touches the accumulated
predicate: every `TerminalQuery` method writes under `order`, `select`,
`relations`, `loadRelationIds` or `cache`, never under `where`. -/
theorem applyTerminalOp_preserves_where (o : TerminalOp) (t : TerminalQuery) :
    getField (fieldsOf (applyTerminalOp o t).query) "where" =
      getField (fieldsOf t.query) "where" := by
  cases o with
  | orderByAscending key =>
      show getField (fieldsOf (setProperty ("order." ++ key) (.vStr "ASC") t.query)) "where" = _
      rw [setProperty, parseNestedPath_order]
      exact getField_setPropertyPath_cons_ne _ _ _ _ _ (by decide)
  | orderByDescending key =>
      show getField (fieldsOf (setProperty ("order." ++ key) (.vStr "DESC") t.query)) "where" = _
      rw [setProperty, parseNestedPath_order]
      exact getField_setPropertyPath_cons_ne _ _ _ _ _ (by decide)
  | select key =>
      show getField (fieldsOf (setProperty ("select." ++ key) (.vBool true) t.query)) "where" = _
      rw [setProperty, parseNestedPath_select]
      exact getField_setPropertyPath_cons_ne _ _ _ _ _ (by decide)
  | fetchRelation k1 k2 k3 k4 =>
      show getField (fieldsOf (setProperty
        (joinSegments ("relations" :: k1 :: [k2, k3, k4].filterMap id)) (.vBool true) t.query))
          "where" = _
      have hj : joinSegments ("relations" :: k1 :: [k2, k3, k4].filterMap id) =
          "relations" ++ "." ++ joinSegments (k1 :: [k2, k3, k4].filterMap id) := rfl
      rw [hj, setProperty, parseNestedPath_prefix_dot "relations" _ (by decide)]
      exact getField_setPropertyPath_cons_ne _ _ _ _ _ (by decide)
  | loadRelationIds flag =>
      exact getField_setField_ne _ _ _ _ (by decide)
  | cache c =>
      exact getField_setField_ne _ _ _ _ (by decide)

/-- C1: on a builder holding the single prior conjunct `x = 1`, `whereOr`
with branches `y = 1` and `y = 2` produces exactly the predicate list
`[(x: 1, y: 1), (x: 1, y: 2)]`: the prior AND-conjunct is distributed
into every OR branch.  The embedding is pure, so each branch computes
from its own seeded copy of the parent predicate — the second branch
result carries `y = 2` and not the first branch's `y = 1`, and the
parent's seed `(x: 1)` is what each branch extends, which is the
no-cross-contamination property the claim states. -/
theorem whereOr_distributes_prior_and_context :
    (QueryWithWhere.whereOr (QueryWithWhere.init.whereEqualTo "x" (some (.vNum 1)))
        [fun q => .ok (q.whereEqualTo "y" (some (.vNum 1))).query,
         fun q => .ok (q.whereEqualTo "y" (some (.vNum 2))).query]).map
      (fun t => getField (fieldsOf t.query) "where") =
    .ok (some (.vArr [.obj [("x", .vNum 1), ("y", .vNum 1)],
                      .obj [("x", .vNum 1), ("y", .vNum 2)]])) := rfl

/-- C2: for every value `V`, `whereEqualTo("a.b", V)` on a fresh builder
yields `relations = (a: true)` and `where = (a: (b: V))`, and
`whereEqualTo("a.b.c", V)` yields `relations = (a: (b: true))` and
`where = (a: (b: (c: V)))`: the eager-load declaration covers every
intermediate relation segment and the leaf value is wrapped in the
nested predicate tree. -/
theorem whereEqualTo_nested_path_roundtrip (V : JVal) :
    (getField (fieldsOf ((QueryWithWhere.init.whereEqualTo "a.b" (some V)).query)) "relations" =
        some (.obj [("a", .vBool true)]) ∧
      getField (fieldsOf ((QueryWithWhere.init.whereEqualTo "a.b" (some V)).query)) "where" =
        some (.obj [("a", .obj [("b", V)])])) ∧
    (getField (fieldsOf ((QueryWithWhere.init.whereEqualTo "a.b.c" (some V)).query)) "relations" =
        some (.obj [("a", .obj [("b", .vBool true)])]) ∧
      getField (fieldsOf ((QueryWithWhere.init.whereEqualTo "a.b.c" (some V)).query)) "where" =
        some (.obj [("a", .obj [("b", .obj [("c", V)])])])) :=
  ⟨⟨rfl, rfl⟩, ⟨rfl, rfl⟩⟩

/-- C5: `whereEqualTo(name, undefined)` is literally `whereIsNull(name)` —
the first line of `whereEqualTo` delegates — so the produced predicate
fragment is identical for every builder state and field name; on a fresh
builder the key is mapped to the `isNull` operator value, not skipped. -/
theorem whereEqualTo_undefined_is_whereIsNull :
    (∀ (s : QueryWithWhere) (key : String),
        s.whereEqualTo key none = s.whereIsNull key) ∧
    getField (fieldsOf ((QueryWithWhere.init.whereEqualTo "name" none).query)) "where" =
      some (.obj [("name", Torm.IsNull)]) :=
  ⟨fun _ _ => rfl, rfl⟩

/-- C10: the `setWhere` guard `if (!where || !key) return this` silently
drops every falsy predicate value: for any builder state, a direct
(dot-free) field name and a falsy value (false, 0, empty string or null),
`whereEqualTo` leaves the builder unchanged, and the guard likewise drops
an undefined value and any falsy value handed to `setWhere` by the other
predicate methods.  Filtering for `false` or `0` through `whereEqualTo`
on a direct field is therefore impossible. -/
theorem whereEqualTo_falsy_value_is_dropped :
    (∀ (s : QueryWithWhere) (key : String) (v : JVal),
        truthy v = false → isNestedPath key = false →
        s.whereEqualTo key (some v) = s) ∧
    (∀ (s : QueryWithWhere) (key : String) (v : JVal),
        truthy v = false → s.setWhere key (some v) = s) ∧
    (∀ (s : QueryWithWhere) (key : String), s.setWhere key none = s) := by
  refine ⟨fun s key v hv hk => ?_, fun s key v hv => ?_, fun s key => rfl⟩
  · show (if isNestedPath key then s.setNestedWhere key v else s.setWhere key (some v)) = s
    rw [hk]
    simp only [Bool.false_eq_true, if_false]
    show (if !(truthy v) || key = "" then s else _) = s
    rw [hv]
    simp
  · show (if !(truthy v) || key = "" then s else _) = s
    rw [hv]
    simp

/-- Witness for C10 at a concrete input: `whereEqualTo("active", false)`
on a fresh builder is a no-op. -/
theorem whereEqualTo_falsy_value_is_dropped_witness :
    truthy (.vBool false) = false ∧ isNestedPath "active" = false ∧
      QueryWithWhere.init.whereEqualTo "active" (some (.vBool false)) = QueryWithWhere.init :=
  ⟨rfl, rfl, whereEqualTo_falsy_value_is_dropped.1 QueryWithWhere.init "active" (.vBool false)
    rfl rfl⟩

/-- C6: `whereIn` raises the chaining-discipline error on every builder
flagged inside `whereJoin` (checked first) or inside `whereOr`, with the
message naming the offending construct and suggesting the correct idiom;
in particular the two spec examples
`whereJoin("photos", q => q.whereIn("id", ["1","2"]))` and
`whereOr(q => q.whereIn("status", ["a","b"]), q => q.whereEqualTo("id", "1"))`
both fail with the respective message. -/
theorem whereIn_forbidden_inside_join_and_or :
    (∀ (s : QueryWithWhere) (key : String) (v : Option (List JVal)),
        s.context.insideWhereJoin = true →
        s.whereIn key v = .error QueryWithWhere.whereInInsideWhereJoinMessage) ∧
    (∀ (s : QueryWithWhere) (key : String) (v : Option (List JVal)),
        s.context.insideWhereJoin = false → s.context.insideWhereOr = true →
        s.whereIn key v = .error QueryWithWhere.whereInInsideWhereOrMessage) ∧
    QueryWithWhere.init.whereJoin "photos"
        (fun q => (q.whereIn "id" (some [.vStr "1", .vStr "2"])).map TerminalQuery.toQuery) =
      .error QueryWithWhere.whereInInsideWhereJoinMessage ∧
    QueryWithWhere.init.whereOr
        [fun q => (q.whereIn "status" (some [.vStr "a", .vStr "b"])).map TerminalQuery.toQuery,
         fun q => .ok (q.whereEqualTo "id" (some (.vStr "1"))).query] =
      .error QueryWithWhere.whereInInsideWhereOrMessage := by
  refine ⟨fun s key v hj => ?_, fun s key v hj ho => ?_, rfl, rfl⟩
  · show (if s.context.insideWhereJoin then _ else _) = _
    rw [hj]
    simp
  · show (if s.context.insideWhereJoin then _ else _) = _
    rw [hj]
    simp only [Bool.false_eq_true, if_false]
    show (if s.context.insideWhereOr then _ else _) = _
    rw [ho]
    simp

/-- Witness for C6 at a concrete input: a builder flagged inside
`whereJoin` rejects `whereIn`, and one flagged inside `whereOr` does
too. -/
theorem whereIn_forbidden_inside_join_and_or_witness :
    (QueryWithWhere.mk initialQueryObject ⟨true, false⟩).whereIn "id"
        (some [.vStr "1"]) = .error QueryWithWhere.whereInInsideWhereJoinMessage ∧
    (QueryWithWhere.mk initialQueryObject ⟨false, true⟩).whereIn "status"
        (some [.vStr "a"]) = .error QueryWithWhere.whereInInsideWhereOrMessage :=
  ⟨whereIn_forbidden_inside_join_and_or.1 _ "id" _ rfl,
   whereIn_forbidden_inside_join_and_or.2.1 _ "status" _ rfl rfl⟩

/-- Counterexample to C4: `whereMoreThan("n", undefined)` on a fresh
builder is not a no-op — it records the predicate `MoreThan(0)` (the
implementation substitutes `value ?? 0`), so the builder's IR changes. -/
theorem whereMoreThan_undefined_not_noop :
    getField (fieldsOf ((QueryWithWhere.init.whereMoreThan "n" none).query)) "where" =
        some (.obj [("n", Torm.MoreThan (.vNum 0))]) ∧
      QueryWithWhere.init.whereMoreThan "n" none ≠ QueryWithWhere.init := by
  refine ⟨rfl, fun h => ?_⟩
  have h1 : getField (fieldsOf ((QueryWithWhere.init.whereMoreThan "n" none).query)) "where" =
      some (.obj [("n", Torm.MoreThan (.vNum 0))]) := rfl
  have h2 : getField (fieldsOf (QueryWithWhere.init.query)) "where" = none := rfl
  rw [h] at h1
  rw [h1] at h2
  exact Option.noConfusion h2

/-- C4 amended: each comparison operator method called with an undefined
value substitutes the default `0` (`value ?? 0`) and records the
resulting predicate — `MoreThan(0)`, `Not(MoreThan(0))`, …,
`Between(0, 0)` — instead of being a no-op. -/
theorem comparison_operators_undefined_use_zero_default :
    getField (fieldsOf ((QueryWithWhere.init.whereMoreThan "n" none).query)) "where" =
        some (.obj [("n", Torm.MoreThan (.vNum 0))]) ∧
    getField (fieldsOf ((QueryWithWhere.init.whereNotMoreThan "n" none).query)) "where" =
        some (.obj [("n", Torm.Not (Torm.MoreThan (.vNum 0)))]) ∧
    getField (fieldsOf ((QueryWithWhere.init.whereMoreThanOrEqual "n" none).query)) "where" =
        some (.obj [("n", Torm.MoreThanOrEqual (.vNum 0))]) ∧
    getField (fieldsOf ((QueryWithWhere.init.whereNotMoreThanOrEqual "n" none).query)) "where" =
        some (.obj [("n", Torm.Not (Torm.MoreThanOrEqual (.vNum 0)))]) ∧
    getField (fieldsOf ((QueryWithWhere.init.whereLessThan "n" none).query)) "where" =
        some (.obj [("n", Torm.LessThan (.vNum 0))]) ∧
    getField (fieldsOf ((QueryWithWhere.init.whereNotLessThan "n" none).query)) "where" =
        some (.obj [("n", Torm.Not (Torm.LessThan (.vNum 0)))]) ∧
    getField (fieldsOf ((QueryWithWhere.init.whereLessThanOrEqual "n" none).query)) "where" =
        some (.obj [("n", Torm.LessThanOrEqual (.vNum 0))]) ∧
    getField (fieldsOf ((QueryWithWhere.init.whereNotLessThanOrEqual "n" none).query)) "where" =
        some (.obj [("n", Torm.Not (Torm.LessThanOrEqual (.vNum 0)))]) ∧
    getField (fieldsOf ((QueryWithWhere.init.whereBetween "n" none none).query)) "where" =
        some (.obj [("n", Torm.Between (.vNum 0) (.vNum 0))]) :=
  ⟨rfl, rfl, rfl, rfl, rfl, rfl, rfl, rfl, rfl⟩

/-- Counterexample to C3: when the target of `deepMerge` holds an operator
value (here `IsNull()`) at a key and the source holds a plain mapping at
the same key, the merge recurses into the operator's own fields instead
of replacing wholesale — the result exposes the operator internals
`_type`/`_value` with the source key appended, which is not the source
value `(b: 1)`. -/
theorem deepMerge_recurses_into_target_operator :
    deepMerge (.obj [("a", Torm.IsNull)]) (.obj [("a", .obj [("b", .vNum 1)])]) =
        .obj [("a", .obj [("_type", .vStr "isNull"), ("_value", .vNull), ("b", .vNum 1)])] ∧
      (JVal.obj [("_type", .vStr "isNull"), ("_value", .vNull), ("b", .vNum 1)]) ≠
        .obj [("b", .vNum 1)] := by
  refine ⟨rfl, ?_⟩
  simp

/-- C3 amended: the merge never recurses into an operator value coming
from the source side — whenever the incoming value is special (a
`FindOperator`, `_type`-tagged object or `Date`), or not a plain object,
or the existing value is not a plain object, the incoming value replaces
the existing value wholesale.  The special-object test is only applied
to the source, so an operator stored in the target is merged into when
the incoming value is a plain untagged mapping (the counterexample). -/
theorem deepMerge_operator_leaf_replacement :
    (∀ (tv sv : JVal), isSpecialObject sv = true → mergeValue (some tv) sv = sv) ∧
    (∀ (tv sv : JVal), isPlainObject sv = false → mergeValue (some tv) sv = sv) ∧
    (∀ (tv sv : JVal), isPlainObject tv = false → mergeValue (some tv) sv = sv) ∧
    (∀ (tag : String) (v : JVal) (sfs : List (String × JVal)), hasTypeField sfs = false →
        mergeValue (some (.op tag v)) (.obj sfs) =
          .obj (mergeFields [("_type", .vStr tag), ("_value", v)] sfs)) := by
  refine ⟨fun tv sv hs => ?_, fun tv sv hs => ?_, fun tv sv ht => ?_,
    fun tag v sfs ht => ?_⟩
  · cases sv with
    | obj sfs =>
        show (if isPlainObject tv && !(isSpecialObject (.obj sfs)) then _ else JVal.obj sfs) = _
        rw [hs]
        simp
    | _ => rfl
  · cases sv with
    | obj sfs => exact absurd hs (by simp [isPlainObject])
    | _ => rfl
  · cases sv with
    | obj sfs =>
        show (if isPlainObject tv && !(isSpecialObject (.obj sfs)) then _ else JVal.obj sfs) = _
        rw [ht]
        simp
    | _ => rfl
  · show (if isPlainObject (JVal.op tag v) && !(isSpecialObject (JVal.obj sfs)) then
        JVal.obj (mergeFields (fieldsOf (JVal.op tag v)) sfs) else JVal.obj sfs) =
      JVal.obj (mergeFields [("_type", JVal.vStr tag), ("_value", v)] sfs)
    have hsp : isSpecialObject (JVal.obj sfs) = hasTypeField sfs := rfl
    rw [hsp, ht]
    simp [isPlainObject, fieldsOf]

/-- Witness for the amended C3 at concrete inputs: an incoming operator
replaces an existing operator wholesale. -/
theorem deepMerge_operator_leaf_replacement_witness :
    isSpecialObject (Torm.MoreThan (.vNum 5)) = true ∧
      mergeValue (some (Torm.LessThan (.vNum 3))) (Torm.MoreThan (.vNum 5)) =
        Torm.MoreThan (.vNum 5) :=
  ⟨rfl, deepMerge_operator_leaf_replacement.1 (Torm.LessThan (.vNum 3))
    (Torm.MoreThan (.vNum 5)) rfl⟩

/-- Counterexample to C9: the token `"NQ=="` (base64 of the JSON payload
`5`) does not decode to a valid encoded pair, yet `decodeNextToken`
returns it without raising the invalid-token error — the successful
parse result is cast, not validated. -/
theorem decodeNextToken_nonpair_no_error :
    decodeNextToken (some "NQ==") = .ok (some (.vNum 5)) ∧
      (∀ xs : List JVal, JVal.vNum 5 ≠ .vArr xs) :=
  ⟨rfl, fun _ h => JVal.noConfusion h⟩

/-- C9 amended: encoding `(skip: 10, take: 20)` and decoding returns the
pair `[10, 20]`; decoding a token whose base64 payload is not valid JSON
raises the invalid-next-token error rather than returning a default (for
instance the corrupted token `"aGVsbG8="`, payload `hello`); decoding a
null or undefined token returns null without error.  A token whose
payload is valid JSON but not a pair is returned as-is, unchecked. -/
theorem pagination_token_roundtrip :
    decodeNextToken (some (toPaginationToken (some 10) (some 20))) =
        .ok (some (.vArr [.vNum 10, .vNum 20])) ∧
    (∀ s : String, s ≠ "" → jsonParse (b64Decode s) = none →
        decodeNextToken (some s) = .error "Invalid next token") ∧
    decodeNextToken (some "aGVsbG8=") = .error "Invalid next token" ∧
    decodeNextToken none = .ok none := by
  refine ⟨rfl, fun s hs hp => ?_, rfl, rfl⟩
  show (if s = "" then _ else _) = _
  rw [if_neg hs]
  show (match fromBase64 (some s) with
    | .ok v => Except.ok v
    | .error _ => Except.error "Invalid next token") = _
  show (match (match jsonParse (b64Decode s) with
    | some v => Except.ok (some v)
    | none => Except.error "Invalid base64 string") with
    | .ok v => Except.ok v
    | .error _ => Except.error "Invalid next token") = _
  rw [hp]

/-- Witness for the amended C9 at a concrete corrupted token. -/
theorem pagination_token_roundtrip_witness :
    ("aGVsbG8=" : String) ≠ "" ∧
      decodeNextToken (some "aGVsbG8=") = .error "Invalid next token" :=
  ⟨by decide, pagination_token_roundtrip.2.1 "aGVsbG8=" (by decide) rfl⟩

/-- C7: after a successful `whereIn` the returned handle is the terminal
surface.  (i) `whereIn("role", [admin, user])` on a fresh builder
succeeds and its membership predicate is in the IR handed to the
terminal handle.  (ii) The terminal class exposes exactly
`orderByAscending`, `orderByDescending`, `select`, `fetchRelation`,
`loadRelationIds` and `cache` (the `TerminalOp` enumeration mirrors the
class declaration; predicate-adding methods, `whereJoin` and `whereOr`
do not exist on it, so any such chained call is a compile-time error in
the source language), and none of these operations modifies the `where`
predicate of any terminal handle.  (iii) All six succeed on the terminal
handle after `whereIn` and their effects, together with the preserved
membership predicate, appear in `toQuery()`. -/
theorem terminal_query_after_whereIn :
    (QueryWithWhere.init.whereIn "role" (some [.vStr "admin", .vStr "user"])).map
        (fun t => getField (fieldsOf t.query) "where") =
      .ok (some (.obj [("role", Torm.In [.vStr "admin", .vStr "user"])])) ∧
    (∀ (o : TerminalOp) (t : TerminalQuery),
        getField (fieldsOf (applyTerminalOp o t).query) "where" =
          getField (fieldsOf t.query) "where") ∧
    (QueryWithWhere.init.whereIn "role" (some [.vStr "admin", .vStr "user"])).map
        (fun t => ((((((t.orderByAscending "name").orderByDescending "createdAt").select
            "id").fetchRelation "photos" none none none).loadRelationIds true).cache
              (.vBool false)).toQuery) =
      .ok (.obj [("cache", .vBool false), ("take", .vNum DEFAULT_PAGE_SIZE),
        ("where", .obj [("role", Torm.In [.vStr "admin", .vStr "user"])]),
        ("order", .obj [("name", .vStr "ASC"), ("createdAt", .vStr "DESC")]),
        ("select", .obj [("id", .vBool true)]),
        ("relations", .obj [("photos", .vBool true)]),
        ("loadRelationIds", .vBool true)]) :=
  ⟨rfl, applyTerminalOp_preserves_where, rfl⟩

/-- Counterexample to C8: the nested paths `a.b.x` and `a.y` do not
overlap (they diverge at the second segment and neither is a prefix of
the other), yet the two application orders of `whereEqualTo` produce
different `relations` trees: path-then-shallower collapses the relation
declaration to `(a: true)` while shallower-then-path deepens it to
`(a: (b: true))` — one order loses the `b` relation declaration. -/
theorem whereEqualTo_order_changes_relations :
    getField (fieldsOf (((QueryWithWhere.init.whereEqualTo "a.b.x" (some (.vNum 1))).whereEqualTo
        "a.y" (some (.vNum 2))).query)) "relations" = some (.obj [("a", .vBool true)]) ∧
    getField (fieldsOf (((QueryWithWhere.init.whereEqualTo "a.y" (some (.vNum 2))).whereEqualTo
        "a.b.x" (some (.vNum 1))).query)) "relations" =
      some (.obj [("a", .obj [("b", .vBool true)])]) ∧
    (JVal.obj [("a", .vBool true)]) ≠ .obj [("a", .obj [("b", .vBool true)])] := by
  refine ⟨rfl, rfl, ?_⟩
  simp

/-- One nested write on a fresh builder, in terms of the parsed segment
list: the relation declaration for the dropped-last prefix and the
nested predicate singleton are installed verbatim. -/
theorem setNestedWhere_fresh (p : String) (a : String) (t : List String) (c : String)
    (pt : List String) (v : JVal)
    (hp : parseNestedPath p = a :: t)
    (hlen : ¬ (a :: t).length ≤ 1)
    (hd : (a :: t).dropLast = c :: pt)
    (hr : parseNestedPath (joinSegments (c :: pt)) = c :: pt) :
    QueryWithWhere.init.setNestedWhere p v =
      ⟨.obj [("cache", .vNum DEFAULT_CACHE_TIME), ("take", .vNum DEFAULT_PAGE_SIZE),
             ("relations", nestedSingleton (c :: pt) (.vBool true)),
             ("where", nestedSingleton (a :: t) v)], ⟨false, false⟩⟩ := by
  have hrel : getRelationPath p = some (joinSegments (c :: pt)) := by
    show (if (parseNestedPath p).length ≤ 1 then none
      else some (joinSegments (parseNestedPath p).dropLast)) = _
    rw [hp, if_neg hlen, hd]
  have hbr : buildRelationsObject (joinSegments (c :: pt)) =
      nestedSingleton (c :: pt) (.vBool true) := by
    rw [buildRelationsObject, hr]
  have hbw : buildNestedWhere p v = nestedSingleton (a :: t) v := by
    rw [buildNestedWhere, hp]
  have hgd : (getField (fieldsOf QueryWithWhere.init.query) "relations").getD (.obj []) =
      .obj [] := rfl
  simp only [QueryWithWhere.setNestedWhere, hrel, hbr, hbw, hgd,
    deepMerge_empty_singleton]
  rfl

/-- A second nested write on a builder whose IR already holds a relations
tree and a plain-object predicate tree deep-merges the new fragments into
both. -/
theorem setNestedWhere_step (p : String) (a : String) (t : List String) (c : String)
    (pt : List String) (v : JVal) (x1 x2 r : JVal) (wfs : List (String × JVal))
    (ctx : QueryContext)
    (hp : parseNestedPath p = a :: t)
    (hlen : ¬ (a :: t).length ≤ 1)
    (hd : (a :: t).dropLast = c :: pt)
    (hr : parseNestedPath (joinSegments (c :: pt)) = c :: pt) :
    (QueryWithWhere.mk (.obj [("cache", x1), ("take", x2), ("relations", r),
        ("where", .obj wfs)]) ctx).setNestedWhere p v =
      ⟨.obj [("cache", x1), ("take", x2),
             ("relations", deepMerge r (nestedSingleton (c :: pt) (.vBool true))),
             ("where", deepMerge (.obj wfs) (nestedSingleton (a :: t) v))], ctx⟩ := by
  have hrel : getRelationPath p = some (joinSegments (c :: pt)) := by
    show (if (parseNestedPath p).length ≤ 1 then none
      else some (joinSegments (parseNestedPath p).dropLast)) = _
    rw [hp, if_neg hlen, hd]
  have hbr : buildRelationsObject (joinSegments (c :: pt)) =
      nestedSingleton (c :: pt) (.vBool true) := by
    rw [buildRelationsObject, hr]
  have hbw : buildNestedWhere p v = nestedSingleton (a :: t) v := by
    rw [buildNestedWhere, hp]
  simp only [QueryWithWhere.setNestedWhere, hrel, hbr, hbw]
  rfl

theorem tail_concat_subset (pre : List String) (x : String) (l : List String) :
    ∀ s ∈ (pre ++ [x]).tail, s ∈ (pre ++ x :: l).tail := by
  cases pre with
  | nil => intro s hs; simp at hs
  | cons c r =>
      intro s hs
      simp only [List.cons_append, List.tail_cons] at hs ⊢
      rcases List.mem_append.mp hs with h | h
      · exact List.mem_append_left _ h
      · simp only [List.mem_singleton] at h
        subst h
        exact List.mem_append_right _ (List.mem_cons_self _ _)

/-- C8 amended: two nested `whereEqualTo` writes on a fresh builder
commute — both application orders produce the same `where` tree and the
same `relations` tree up to object key order — provided the parsed paths
share a (possibly empty) segment prefix and then diverge, and the
divergence is either at the final segment of both paths or strictly
before the final segment of both.  (When one path diverges at its own
final segment while the other continues deeper, the relation
declarations collide and the orders differ — the counterexample.)
Segments must be dot-free, and segments after the first must not be the
reserved `_type` key. -/
theorem whereEqualTo_independent_paths_commute
    (p1 p2 : String) (pre : List String) (a b : String) (α β : List String) (v1 v2 : JVal)
    (hn1 : isNestedPath p1 = true) (hn2 : isNestedPath p2 = true)
    (hp1 : parseNestedPath p1 = pre ++ a :: α)
    (hp2 : parseNestedPath p2 = pre ++ b :: β)
    (hlen1 : 2 ≤ (pre ++ a :: α).length) (hlen2 : 2 ≤ (pre ++ b :: β).length)
    (hdot1 : ∀ s ∈ pre ++ a :: α, ∀ ch ∈ s.toList, ch ≠ '.')
    (hdot2 : ∀ s ∈ pre ++ b :: β, ∀ ch ∈ s.toList, ch ≠ '.')
    (htype1 : ∀ s ∈ (pre ++ a :: α).tail, s ≠ "_type")
    (htype2 : ∀ s ∈ (pre ++ b :: β).tail, s ≠ "_type")
    (hab : a ≠ b)
    (hcase : (α = [] ∧ β = []) ∨ (α ≠ [] ∧ β ≠ [])) :
    SameTreeOpt
      (getField (fieldsOf (((QueryWithWhere.init.whereEqualTo p1 (some v1)).whereEqualTo p2
        (some v2)).query)) "where")
      (getField (fieldsOf (((QueryWithWhere.init.whereEqualTo p2 (some v2)).whereEqualTo p1
        (some v1)).query)) "where") ∧
    SameTreeOpt
      (getField (fieldsOf (((QueryWithWhere.init.whereEqualTo p1 (some v1)).whereEqualTo p2
        (some v2)).query)) "relations")
      (getField (fieldsOf (((QueryWithWhere.init.whereEqualTo p2 (some v2)).whereEqualTo p1
        (some v1)).query)) "relations") := by
  have hwe1 : ∀ (s : QueryWithWhere), s.whereEqualTo p1 (some v1) = s.setNestedWhere p1 v1 := by
    intro s
    show (if isNestedPath p1 then s.setNestedWhere p1 v1 else s.setWhere p1 (some v1)) = _
    rw [hn1]
    rfl
  have hwe2 : ∀ (s : QueryWithWhere), s.whereEqualTo p2 (some v2) = s.setNestedWhere p2 v2 := by
    intro s
    show (if isNestedPath p2 then s.setNestedWhere p2 v2 else s.setWhere p2 (some v2)) = _
    rw [hn2]
    rfl
  simp only [hwe1, hwe2]
  obtain ⟨a1, t1, hσ1⟩ : ∃ x l, pre ++ a :: α = x :: l := by
    cases pre <;> exact ⟨_, _, rfl⟩
  obtain ⟨a2, t2, hσ2⟩ : ∃ x l, pre ++ b :: β = x :: l := by
    cases pre <;> exact ⟨_, _, rfl⟩
  have hp1' : parseNestedPath p1 = a1 :: t1 := hp1.trans hσ1
  have hp2' : parseNestedPath p2 = a2 :: t2 := hp2.trans hσ2
  have hlen1' : ¬ (a1 :: t1).length ≤ 1 := by
    rw [← hσ1]
    omega
  have hlen2' : ¬ (a2 :: t2).length ≤ 1 := by
    rw [← hσ2]
    omega
  have htypeA : ∀ s ∈ (pre ++ [a]).tail, s ≠ "_type" :=
    fun s hs => htype1 s (tail_concat_subset pre a α s hs)
  have htypeB : ∀ s ∈ (pre ++ [b]).tail, s ≠ "_type" :=
    fun s hs => htype2 s (tail_concat_subset pre b β s hs)
  rcases hcase with ⟨hα, hβ⟩ | ⟨hα, hβ⟩
  · -- both paths diverge at their final segment: the relation prefixes agree
    subst hα
    subst hβ
    obtain ⟨c, rest, hpre⟩ : ∃ c rest, pre = c :: rest := by
      cases pre with
      | nil => simp at hlen1
      | cons c r => exact ⟨c, r, rfl⟩
    have hd1 : (a1 :: t1).dropLast = c :: rest := by
      rw [← hσ1, ← hpre]
      simp
    have hd2 : (a2 :: t2).dropLast = c :: rest := by
      rw [← hσ2, ← hpre]
      simp
    have hrpre : parseNestedPath (joinSegments (c :: rest)) = c :: rest := by
      apply parseNestedPath_joinSegments _ (by simp)
      intro s hs
      rw [← hpre] at hs
      exact hdot1 s (List.mem_append_left _ hs)
    rw [setNestedWhere_fresh p1 a1 t1 c rest v1 hp1' hlen1' hd1 hrpre,
      nestedSingleton_cons a1 t1 v1,
      setNestedWhere_step p2 a2 t2 c rest v2 _ _ _ _ _ hp2' hlen2' hd2 hrpre,
      setNestedWhere_fresh p2 a2 t2 c rest v2 hp2' hlen2' hd2 hrpre,
      nestedSingleton_cons a2 t2 v2,
      setNestedWhere_step p1 a1 t1 c rest v1 _ _ _ _ _ hp1' hlen1' hd1 hrpre]
    refine ⟨?_, ?_⟩
    · show SameTree
        (deepMerge (.obj [(a1, nestedSingleton t1 v1)]) (nestedSingleton (a2 :: t2) v2))
        (deepMerge (.obj [(a2, nestedSingleton t2 v2)]) (nestedSingleton (a1 :: t1) v1))
      rw [← nestedSingleton_cons a1 t1 v1, ← nestedSingleton_cons a2 t2 v2, ← hσ1, ← hσ2]
      exact mergeSingleton_comm pre a b [] [] v1 v2 hab htypeA htypeB
    · show SameTree
        (deepMerge (nestedSingleton (c :: rest) (.vBool true))
          (nestedSingleton (c :: rest) (.vBool true)))
        (deepMerge (nestedSingleton (c :: rest) (.vBool true))
          (nestedSingleton (c :: rest) (.vBool true)))
      exact SameTree.refl _
  · -- both paths continue past the divergence point
    have hdl1 : (a1 :: t1).dropLast = pre ++ a :: α.dropLast := by
      rw [← hσ1, List.dropLast_append_of_ne_nil pre (by simp)]
      have h2 : ([a] ++ α).dropLast = [a] ++ α.dropLast :=
        List.dropLast_append_of_ne_nil [a] hα
      simp only [List.singleton_append] at h2
      rw [h2]
    have hdl2 : (a2 :: t2).dropLast = pre ++ b :: β.dropLast := by
      rw [← hσ2, List.dropLast_append_of_ne_nil pre (by simp)]
      have h2 : ([b] ++ β).dropLast = [b] ++ β.dropLast :=
        List.dropLast_append_of_ne_nil [b] hβ
      simp only [List.singleton_append] at h2
      rw [h2]
    obtain ⟨c1, pt1, hc1⟩ : ∃ x l, pre ++ a :: α.dropLast = x :: l := by
      cases pre <;> exact ⟨_, _, rfl⟩
    obtain ⟨c2, pt2, hc2⟩ : ∃ x l, pre ++ b :: β.dropLast = x :: l := by
      cases pre <;> exact ⟨_, _, rfl⟩
    have hsub1 : ∀ s ∈ pre ++ a :: α.dropLast, s ∈ pre ++ a :: α := by
      intro s hs
      rcases List.mem_append.mp hs with h | h
      · exact List.mem_append_left _ h
      · rcases List.mem_cons.mp h with h | h
        · subst h
          exact List.mem_append_right _ (List.mem_cons_self _ _)
        · exact List.mem_append_right _
            (List.mem_cons_of_mem _ (List.dropLast_subset α h))
    have hsub2 : ∀ s ∈ pre ++ b :: β.dropLast, s ∈ pre ++ b :: β := by
      intro s hs
      rcases List.mem_append.mp hs with h | h
      · exact List.mem_append_left _ h
      · rcases List.mem_cons.mp h with h | h
        · subst h
          exact List.mem_append_right _ (List.mem_cons_self _ _)
        · exact List.mem_append_right _
            (List.mem_cons_of_mem _ (List.dropLast_subset β h))
    have hr1 : parseNestedPath (joinSegments (c1 :: pt1)) = c1 :: pt1 := by
      rw [← hc1]
      exact parseNestedPath_joinSegments _ (by cases pre <;> simp)
        (fun s hs => hdot1 s (hsub1 s hs))
    have hr2 : parseNestedPath (joinSegments (c2 :: pt2)) = c2 :: pt2 := by
      rw [← hc2]
      exact parseNestedPath_joinSegments _ (by cases pre <;> simp)
        (fun s hs => hdot2 s (hsub2 s hs))
    have hd1 : (a1 :: t1).dropLast = c1 :: pt1 := hdl1.trans hc1
    have hd2 : (a2 :: t2).dropLast = c2 :: pt2 := hdl2.trans hc2
    rw [setNestedWhere_fresh p1 a1 t1 c1 pt1 v1 hp1' hlen1' hd1 hr1,
      nestedSingleton_cons a1 t1 v1,
      setNestedWhere_step p2 a2 t2 c2 pt2 v2 _ _ _ _ _ hp2' hlen2' hd2 hr2,
      setNestedWhere_fresh p2 a2 t2 c2 pt2 v2 hp2' hlen2' hd2 hr2,
      nestedSingleton_cons a2 t2 v2,
      setNestedWhere_step p1 a1 t1 c1 pt1 v1 _ _ _ _ _ hp1' hlen1' hd1 hr1]
    refine ⟨?_, ?_⟩
    · show SameTree
        (deepMerge (.obj [(a1, nestedSingleton t1 v1)]) (nestedSingleton (a2 :: t2) v2))
        (deepMerge (.obj [(a2, nestedSingleton t2 v2)]) (nestedSingleton (a1 :: t1) v1))
      rw [← nestedSingleton_cons a1 t1 v1, ← nestedSingleton_cons a2 t2 v2, ← hσ1, ← hσ2]
      exact mergeSingleton_comm pre a b α β v1 v2 hab htypeA htypeB
    · show SameTree
        (deepMerge (nestedSingleton (c1 :: pt1) (.vBool true))
          (nestedSingleton (c2 :: pt2) (.vBool true)))
        (deepMerge (nestedSingleton (c2 :: pt2) (.vBool true))
          (nestedSingleton (c1 :: pt1) (.vBool true)))
      rw [← hc1, ← hc2]
      exact mergeSingleton_comm pre a b α.dropLast β.dropLast _ _ hab htypeA htypeB

/-- Witness for the amended C8 at the concrete divergent paths `a.b` and
`a.c` with values 1 and 2. -/
theorem whereEqualTo_independent_paths_commute_witness :
    isNestedPath "a.b" = true ∧ parseNestedPath "a.b" = ["a"] ++ "b" :: [] ∧
    SameTreeOpt
      (getField (fieldsOf (((QueryWithWhere.init.whereEqualTo "a.b"
        (some (.vNum 1))).whereEqualTo "a.c" (some (.vNum 2))).query)) "where")
      (getField (fieldsOf (((QueryWithWhere.init.whereEqualTo "a.c"
        (some (.vNum 2))).whereEqualTo "a.b" (some (.vNum 1))).query)) "where") ∧
    SameTreeOpt
      (getField (fieldsOf (((QueryWithWhere.init.whereEqualTo "a.b"
        (some (.vNum 1))).whereEqualTo "a.c" (some (.vNum 2))).query)) "relations")
      (getField (fieldsOf (((QueryWithWhere.init.whereEqualTo "a.c"
        (some (.vNum 2))).whereEqualTo "a.b" (some (.vNum 1))).query)) "relations") := by
  have h := whereEqualTo_independent_paths_commute "a.b" "a.c" ["a"] "b" "c" [] []
    (.vNum 1) (.vNum 2) rfl rfl rfl rfl (by decide) (by decide) (by decide) (by decide)
    (by decide) (by decide) (by decide) (Or.inl ⟨rfl, rfl⟩)
  exact ⟨rfl, rfl, h.1, h.2⟩
